import Mathlib

/-!
Verification of the day-scheduler logic of the calendarv2 repository.

The executable scheduling logic of the repository lives in
`frontend/src/api.ts`: the demonstration ("mock") implementation of the
schedule service.  This file embeds those functions shallowly in Lean and
proves properties about them.

Modelling conventions:
  * Time instants are integer minutes from the demo day's midnight.  The
    source stores ISO-8601 strings and compares their epoch-millisecond
    values (`new Date(x).getTime()`); minutes are an order-preserving and
    addition-compatible change of unit, since every duration the source adds
    is `duration_minutes * 60 * 1000` milliseconds.
  * The `end` field of intervals and blocks is called `stop` here because
    `end` is a reserved word in Lean.
  * Optional / falsy-checked fields of the TypeScript payloads are modelled
    with `Option`.  The only exception is the `!payload.event_id` check of
    `mockCreateEvent`, which is also true for the empty string; the model
    checks both cases explicitly.
  * `details : Record<string, unknown>` of `ApiEvent` is always `{}` in the
    mock code and never read, so it is omitted from the model.
-/

namespace Calendar

/-- Half-open time interval; models the `{ start, end }` window objects of
`api.ts` (`free_windows` entries). -/
structure Iv where
  start : Int
  stop : Int
deriving DecidableEq

/-- The `"fixed" | "flexible"` type tag of events and blocks. -/
inductive EvType where
  | fixed
  | flexible
deriving DecidableEq

/-- `ApiEvent` of `api.ts` (the always-empty `details` record is omitted). -/
structure ApiEvent where
  event_id : String
  type : EvType
  duration_minutes : Int
  importance : Int
deriving DecidableEq

/-- `ApiBlock` of `api.ts`.  The mock never sets the chunk fields, which is
why they default to `none`. -/
structure ApiBlock where
  start : Int
  stop : Int
  event_id : String
  type : EvType
  chunk_index : Option Int := none
  chunk_count : Option Int := none
deriving DecidableEq

/-- `ApiSchedule` of `api.ts`. -/
structure ApiSchedule where
  day_start : Int
  day_end : Int
  events : List ApiEvent
  blocks : List ApiBlock
  free_windows : List Iv
deriving DecidableEq

/-- `MockState` of `api.ts`. -/
structure MockState where
  schedule : ApiSchedule
deriving DecidableEq

/-- `ProposalPreview` of `api.ts`. -/
structure ProposalPreview where
  blocks : List ApiBlock
  free_windows : List Iv
deriving DecidableEq

/-- `EventPayload` of `api.ts`. -/
structure EventPayload where
  event_id : Option String := none
  type : EvType
  duration_minutes : Int
  importance : Int := 1
  can_split : Option Bool := none
  min_chunk_minutes : Option Int := none
  start : Option Int := none
  earliest_start : Option Int := none
  latest_finish : Option Int := none
deriving DecidableEq

/-- `SettingsPayload` of `api.ts`. -/
structure SettingsPayload where
  day_start : Option Int := none
  day_end : Option Int := none
deriving DecidableEq

/-- The only exception the mock mutation path throws: `mockCreateEvent`
raises when `payload.event_id` is missing or empty. -/
inductive MockError where
  | missingEventId
deriving DecidableEq

/-- Half-open overlap test from the specification (section 4.1):
`a.start < b.end ∧ b.start < a.end`.  Touching endpoints do not overlap. -/
def overlaps (aStart aStop bStart bStop : Int) : Prop :=
  aStart < bStop ∧ bStart < aStop

instance overlapsDecidable (a b c d : Int) : Decidable (overlaps a b c d) :=
  inferInstanceAs (Decidable (a < d ∧ c < b))

/-- Membership of an instant in a free window (half-open). -/
def inWindow (w : Iv) (t : Int) : Prop :=
  w.start ≤ t ∧ t < w.stop

instance inWindowDecidable (w : Iv) (t : Int) : Decidable (inWindow w t) :=
  inferInstanceAs (Decidable (w.start ≤ t ∧ t < w.stop))

/-- Membership of an instant in a block's interval (half-open). -/
def inBlock (b : ApiBlock) (t : Int) : Prop :=
  b.start ≤ t ∧ t < b.stop

instance inBlockDecidable (b : ApiBlock) (t : Int) : Decidable (inBlock b t) :=
  inferInstanceAs (Decidable (b.start ≤ t ∧ t < b.stop))

/-- The sort in `computeFreeWindows` and `mockCreateEvent`:
`.sort((a, b) => new Date(a.start).getTime() - new Date(b.start).getTime())`,
i.e. ascending by block start. -/
def sortBlocks (blocks : List ApiBlock) : List ApiBlock :=
  blocks.insertionSort (fun a b => a.start ≤ b.start)

/-- The cursor sweep of `computeFreeWindows` (api.ts lines 185-203): walk the
sorted blocks; when a block starts after the cursor emit the gap as a free
window; advance the cursor past the block's end when that end is ahead of the
cursor; finally emit the tail gap up to the end of the day. -/
def sweep (dayEnd : Int) (cursor : Int) : List ApiBlock → List Iv
  | [] => if cursor < dayEnd then [⟨cursor, dayEnd⟩] else []
  | b :: rest =>
      (if b.start > cursor then [⟨cursor, b.start⟩] else []) ++
        sweep dayEnd (if b.stop > cursor then b.stop else cursor) rest

/-- `computeFreeWindows` of `api.ts` (lines 179-204). -/
def computeFreeWindows (schedule : ApiSchedule) : List Iv :=
  sweep schedule.day_end schedule.day_start (sortBlocks schedule.blocks)

/-- The qualification test of the window scan inside `placeFlexibleEvent`:
with candidate start `max w.start E`, the candidate end must fit both the
window and the `latest` bound (`candidateEnd <= windowEnd && candidateEnd <=
latest` in the source). -/
def qualifies (d e l : Int) (w : Iv) : Prop :=
  max w.start e + d ≤ w.stop ∧ max w.start e + d ≤ l

instance qualifiesDecidable (d e l : Int) (w : Iv) : Decidable (qualifies d e l w) :=
  inferInstanceAs (Decidable (max w.start e + d ≤ w.stop ∧ max w.start e + d ≤ l))

/-- The `for (const window of schedule.free_windows)` loop of
`placeFlexibleEvent` with its early `return`: first window whose candidate
placement fits yields that placement. -/
def scanWindows (d e l : Int) : List Iv → Option Iv
  | [] => none
  | w :: rest =>
      let candidateStart := max w.start e
      let candidateEnd := candidateStart + d
      if candidateEnd ≤ w.stop ∧ candidateEnd ≤ l then some ⟨candidateStart, candidateEnd⟩
      else scanWindows d e l rest

/-- `placeFlexibleEvent` of `api.ts` (lines 208-231): first-fit scan of the
stored free windows; when no window qualifies, fall back to placing the event
right after the last block of the schedule (or at `day_start` when there are
no blocks) — the source comments this fallback explicitly. -/
def placeFlexibleEvent (payload : EventPayload) (schedule : ApiSchedule) : Iv :=
  let durationMin := payload.duration_minutes
  let earliest := payload.earliest_start.getD schedule.day_start
  let latest := payload.latest_finish.getD schedule.day_end
  match scanWindows durationMin earliest latest schedule.free_windows with
  | some iv => iv
  | none =>
      let fallbackStart :=
        match schedule.blocks.getLast? with
        | some b => b.stop
        | none => schedule.day_start
      ⟨fallbackStart, fallbackStart + durationMin⟩

/-- The block `mockCreateEvent` builds for the new event (api.ts lines
247-265): fixed events get `[start, start + duration)` at the declared start
(defaulting to `day_start`), flexible events get the `placeFlexibleEvent`
placement. -/
def createdBlock (payload : EventPayload) (schedule : ApiSchedule) (eid : String) : ApiBlock :=
  match payload.type with
  | .fixed =>
      let s := payload.start.getD schedule.day_start
      { start := s, stop := s + payload.duration_minutes, event_id := eid, type := .fixed }
  | .flexible =>
      let placement := placeFlexibleEvent payload schedule
      { start := placement.start, stop := placement.stop, event_id := eid, type := .flexible }

/-- `mockCreateEvent` of `api.ts` (lines 233-275): reject a missing (or
empty, which is falsy) event id; otherwise build the event and its block,
replace any existing event/blocks with the same id, re-sort the blocks by
start, and recompute the free windows. -/
def mockCreateEvent (payload : EventPayload) (st : MockState) : Except MockError MockState :=
  match payload.event_id with
  | none => .error .missingEventId
  | some eid =>
      if eid = "" then .error .missingEventId
      else
        let schedule := st.schedule
        let baseEvent : ApiEvent :=
          { event_id := eid, type := payload.type,
            duration_minutes := payload.duration_minutes, importance := payload.importance }
        let block := createdBlock payload schedule eid
        let events1 := (schedule.events.filter (fun e => e.event_id ≠ eid)) ++ [baseEvent]
        let blocks1 := sortBlocks ((schedule.blocks.filter (fun b => b.event_id ≠ eid)) ++ [block])
        let schedule1 := { schedule with events := events1, blocks := blocks1 }
        .ok ⟨{ schedule1 with free_windows := computeFreeWindows schedule1 }⟩

/-- `mockCompleteEvent` of `api.ts` (lines 277-283): drop the event and every
block with its id, then recompute the free windows. -/
def mockCompleteEvent (eventId : String) (st : MockState) : MockState :=
  let schedule := st.schedule
  let events1 := schedule.events.filter (fun e => e.event_id ≠ eventId)
  let blocks1 := schedule.blocks.filter (fun b => b.event_id ≠ eventId)
  let schedule1 := { schedule with events := events1, blocks := blocks1 }
  ⟨{ schedule1 with free_windows := computeFreeWindows schedule1 }⟩

/-- `mockUpdateSettings` of `api.ts` (lines 285-295): overwrite whichever day
bounds are provided and recompute the free windows; blocks are untouched. -/
def mockUpdateSettings (payload : SettingsPayload) (st : MockState) : MockState :=
  let schedule := st.schedule
  let schedule1 := { schedule with
    day_start := payload.day_start.getD schedule.day_start,
    day_end := payload.day_end.getD schedule.day_end }
  ⟨{ schedule1 with free_windows := computeFreeWindows schedule1 }⟩

/-- `mockProposal` of `api.ts` (lines 297-314).  The source function performs
no assignment to the mock state; the state component of the result is the
input state, which makes that fact reviewable in the embedding. -/
def mockProposal (payload : EventPayload) (st : MockState) : ProposalPreview × MockState :=
  let schedule := st.schedule
  match payload.type with
  | .flexible =>
      let placement := placeFlexibleEvent payload schedule
      (⟨[{ event_id := payload.event_id.getD "proposal", type := .flexible,
            start := placement.start, stop := placement.stop }],
        schedule.free_windows⟩, st)
  | .fixed => (⟨[], schedule.free_windows⟩, st)

/-- The schedule literal inside `createMockState` (api.ts lines 123-173)
before its `free_windows` are filled in: day `[08:00, 20:00)`, fixed
`training` at `[10:00, 11:00)` and fixed `lecture` at `[13:00, 14:30)`,
in minutes from midnight. -/
def initialScheduleRaw : ApiSchedule :=
  { day_start := 480, day_end := 1200,
    events :=
      [ { event_id := "training", type := .fixed, duration_minutes := 60, importance := 1 },
        { event_id := "lecture", type := .fixed, duration_minutes := 90, importance := 1 } ],
    blocks :=
      [ { start := 600, stop := 660, event_id := "training", type := .fixed },
        { start := 780, stop := 870, event_id := "lecture", type := .fixed } ],
    free_windows := [] }

/-- `createMockState` of `api.ts`: the initial schedule with its free windows
computed. -/
def createMockState : MockState :=
  ⟨{ initialScheduleRaw with free_windows := computeFreeWindows initialScheduleRaw }⟩

/-- `const mockState = createMockState();` of `api.ts`. -/
def mockState : MockState := createMockState

/-- One mutating call of the mock api surface: `createEvent`,
`completeEvent` or `updateSettings` routed to the mock implementations. -/
inductive MockOp where
  | create (payload : EventPayload)
  | complete (eventId : String)
  | settings (payload : SettingsPayload)
deriving DecidableEq

/-- Whether an operation is a create. -/
def MockOp.isCreate : MockOp → Bool
  | .create _ => true
  | _ => false

/-- Apply one mutating operation to the mock state.  A create whose payload
lacks an event id throws in the source before touching the state, so the
state is unchanged in the error case. -/
def applyOp (st : MockState) : MockOp → MockState
  | .create p =>
      match mockCreateEvent p st with
      | .ok st1 => st1
      | .error _ => st
  | .complete eid => mockCompleteEvent eid st
  | .settings p => mockUpdateSettings p st

/-- Run a sequence of mutating operations against a state. -/
def runOps (ops : List MockOp) (st : MockState) : MockState :=
  ops.foldl applyOp st

/-- The fallback start used by `placeFlexibleEvent` when no window qualifies:
the end of the last block of the schedule, or the start of the day when there
are no blocks. -/
def fallbackStart (schedule : ApiSchedule) : Int :=
  match schedule.blocks.getLast? with
  | some b => b.stop
  | none => schedule.day_start

/-- The `deep-work` scenario of the specification (section 8): 120 minutes,
eligibility `[09:00, 12:00)`, not splittable.  No free window of the initial
schedule can hold it within the eligibility bound. -/
def deepWorkPayload : EventPayload :=
  { event_id := some "deep-work", type := .flexible, duration_minutes := 120,
    can_split := some false, earliest_start := some 540, latest_finish := some 720 }

/-- A fixed event at `[10:10, 11:10)`, overlapping the initial `training`
block `[10:00, 11:00)`. -/
def overlapDemoPayload : EventPayload :=
  { event_id := some "overlap-demo", type := .fixed, duration_minutes := 60, start := some 610 }

/-- A fixed event at `[10:30, 11:30)`, overlapping the initial `training`
block `[10:00, 11:00)`. -/
def gymPayload : EventPayload :=
  { event_id := some "gym", type := .fixed, duration_minutes := 60, start := some 630 }

/-- A fixed event at `[14:55, 15:25)` that overlaps no initial block. -/
def webinarPayload : EventPayload :=
  { event_id := some "webinar", type := .fixed, duration_minutes := 30, start := some 895 }

/-- A schedule whose block list contains a zero-length block and a block that
starts after the end of the day. -/
def outOfDaySchedule : ApiSchedule :=
  { day_start := 0, day_end := 100, events := [],
    blocks := [ { start := 50, stop := 50, event_id := "z", type := .fixed },
                { start := 120, stop := 130, event_id := "y", type := .fixed } ],
    free_windows := [] }

/-- A create payload whose id `training` is already present in the initial
schedule (with different duration and start, so the replacement is visible). -/
def duplicateTrainingPayload : EventPayload :=
  { event_id := some "training", type := .fixed, duration_minutes := 30, start := some 540 }

/-- A create payload whose id `lecture` is already present in the initial
schedule. -/
def lectureRepeatPayload : EventPayload :=
  { event_id := some "lecture", type := .fixed, duration_minutes := 60, start := some 780 }

/-- A splittable flexible activity of 360 minutes.  No single free window of
the initial schedule is that long, but the three windows together hold
570 minutes, so the specification's splitting algorithm would place it in
chunks. -/
def bigtaskPayload : EventPayload :=
  { event_id := some "bigtask", type := .flexible, duration_minutes := 360,
    can_split := some true, min_chunk_minutes := some 30 }

/-- A short splittable flexible activity used to exercise the create path. -/
def readingPayload : EventPayload :=
  { event_id := some "reading", type := .flexible, duration_minutes := 45,
    can_split := some true, min_chunk_minutes := some 15 }

/-- A fixed candidate for the proposal query, declared at `[15:00, 16:00)`. -/
def standupPayload : EventPayload :=
  { event_id := some "standup", type := .fixed, duration_minutes := 60, start := some 900 }

/-- A flexible candidate for the proposal query. -/
def coffeePayload : EventPayload :=
  { event_id := some "coffee", type := .flexible, duration_minutes := 15 }

/-- A schedule holding a single reversed block (`start > end`). -/
def reversedSchedule : ApiSchedule :=
  { day_start := 0, day_end := 100, events := [],
    blocks := [ { start := 70, stop := 30, event_id := "w", type := .fixed } ],
    free_windows := [] }

/-- A schedule with unsorted, touching and zero-length (but not reversed)
blocks. -/
def unsortedSchedule : ApiSchedule :=
  { day_start := 0, day_end := 100, events := [],
    blocks := [ { start := 40, stop := 60, event_id := "b", type := .fixed },
                { start := 10, stop := 30, event_id := "a", type := .fixed },
                { start := 20, stop := 20, event_id := "c", type := .fixed },
                { start := 60, stop := 70, event_id := "d", type := .fixed } ],
    free_windows := [] }

/-- A create payload reusing the id `training` with new fields, used to show
that a create with an existing id replaces rather than appends. -/
def trainingAgainPayload : EventPayload :=
  { event_id := some "training", type := .fixed, duration_minutes := 45, start := some 900 }

/-- Sorting the blocks permutes them. -/
theorem sortBlocks_perm (l : List ApiBlock) : (sortBlocks l).Perm l :=
  List.perm_insertionSort _ l

/-- Sorting the blocks orders them by ascending start. -/
theorem sortBlocks_sorted (l : List ApiBlock) :
    (sortBlocks l).Pairwise (fun a b => a.start ≤ b.start) := by
  have h1 : IsTotal ApiBlock (fun a b => a.start ≤ b.start) :=
    ⟨fun a b => Int.le_total a.start b.start⟩
  have h2 : IsTrans ApiBlock (fun a b => a.start ≤ b.start) :=
    ⟨fun a b c hab hbc => le_trans hab hbc⟩
  exact List.sorted_insertionSort _ l

/-- Every window the sweep emits starts at or after the cursor and is
nonempty. -/
theorem sweep_window_bounds (dayEnd : Int) :
    ∀ (blocks : List ApiBlock) (cursor : Int), ∀ w ∈ sweep dayEnd cursor blocks,
      cursor ≤ w.start ∧ w.start < w.stop := by
  intro blocks
  induction blocks with
  | nil =>
      intro cursor w hw
      simp only [sweep] at hw
      split at hw
      · rcases List.mem_singleton.mp hw with rfl
        exact ⟨le_refl _, by assumption⟩
      · exact absurd hw (List.not_mem_nil w)
  | cons b rest ih =>
      intro cursor w hw
      simp only [sweep, List.mem_append] at hw
      rcases hw with hw | hw
      · split at hw
        · rcases List.mem_singleton.mp hw with rfl
          exact ⟨le_refl _, by assumption⟩
        · exact absurd hw (List.not_mem_nil w)
      · have h := ih _ w hw
        refine ⟨le_trans ?_ h.1, h.2⟩
        split <;> omega

/-- Windows emitted by the sweep are separated (each ends at or before the
next starts) provided every block is a forward interval. -/
theorem sweep_separated (dayEnd : Int) :
    ∀ (blocks : List ApiBlock), (∀ b ∈ blocks, b.start ≤ b.stop) →
      ∀ cursor, (sweep dayEnd cursor blocks).Pairwise (fun a b => a.stop ≤ b.start) := by
  intro blocks
  induction blocks with
  | nil =>
      intro _ cursor
      simp only [sweep]
      split
      · exact List.pairwise_singleton _ _
      · exact List.Pairwise.nil
  | cons b rest ih =>
      intro hvalid cursor
      have hb : b.start ≤ b.stop := hvalid b (List.mem_cons_self b rest)
      have hrest : ∀ b1 ∈ rest, b1.start ≤ b1.stop :=
        fun b1 h1 => hvalid b1 (List.mem_cons_of_mem b h1)
      simp only [sweep]
      split
      · rename_i hgt
        rw [List.singleton_append]
        refine List.Pairwise.cons ?_ (ih hrest _)
        intro w hw
        have hlb := (sweep_window_bounds dayEnd rest _ w hw).1
        have hc : b.stop ≤ (if b.stop > cursor then b.stop else cursor) := by split <;> omega
        show Iv.stop ⟨cursor, b.start⟩ ≤ w.start
        simp only [Iv.stop]
        omega
      · rw [List.nil_append]
        exact ih hrest _

/-- Strict version of `sweep_separated`: with strictly forward blocks each
window ends strictly before the next starts (the windows are maximal). -/
theorem sweep_separated_strict (dayEnd : Int) :
    ∀ (blocks : List ApiBlock), (∀ b ∈ blocks, b.start < b.stop) →
      ∀ cursor, (sweep dayEnd cursor blocks).Pairwise (fun a b => a.stop < b.start) := by
  intro blocks
  induction blocks with
  | nil =>
      intro _ cursor
      simp only [sweep]
      split
      · exact List.pairwise_singleton _ _
      · exact List.Pairwise.nil
  | cons b rest ih =>
      intro hvalid cursor
      have hb : b.start < b.stop := hvalid b (List.mem_cons_self b rest)
      have hrest : ∀ b1 ∈ rest, b1.start < b1.stop :=
        fun b1 h1 => hvalid b1 (List.mem_cons_of_mem b h1)
      simp only [sweep]
      split
      · rename_i hgt
        rw [List.singleton_append]
        refine List.Pairwise.cons ?_ (ih hrest _)
        intro w hw
        have hlb := (sweep_window_bounds dayEnd rest _ w hw).1
        have hc : b.stop ≤ (if b.stop > cursor then b.stop else cursor) := by split <;> omega
        show Iv.stop ⟨cursor, b.start⟩ < w.start
        simp only [Iv.stop]
        omega
      · rw [List.nil_append]
        exact ih hrest _

/-- Coverage of the sweep: an instant lies in one of the emitted windows
exactly when it lies in `[cursor, dayEnd)` and in no block, provided the
blocks are sorted by start and every block starts no later than `dayEnd`. -/
theorem sweep_mem_iff (dayEnd : Int) :
    ∀ (blocks : List ApiBlock),
      blocks.Pairwise (fun a b => a.start ≤ b.start) →
      (∀ b ∈ blocks, b.start ≤ dayEnd) →
      ∀ (cursor t : Int),
        (∃ w ∈ sweep dayEnd cursor blocks, inWindow w t) ↔
          (cursor ≤ t ∧ t < dayEnd ∧ ∀ b ∈ blocks, ¬ inBlock b t) := by
  intro blocks
  induction blocks with
  | nil =>
      intro _ _ cursor t
      simp only [sweep, inWindow]
      split
      · simp only [List.mem_singleton]
        constructor
        · rintro ⟨w, rfl, h1, h2⟩
          exact ⟨h1, h2, by simp⟩
        · rintro ⟨h1, h2, -⟩
          exact ⟨_, rfl, h1, h2⟩
      · constructor
        · rintro ⟨w, h, -⟩
          exact absurd h (List.not_mem_nil w)
        · rintro ⟨h1, h2, -⟩
          omega
  | cons b rest ih =>
      intro hsorted hbound cursor t
      have hble : ∀ b1 ∈ rest, b.start ≤ b1.start :=
        fun b1 h1 => List.rel_of_pairwise_cons hsorted h1
      have hsrest : rest.Pairwise (fun a b => a.start ≤ b.start) := hsorted.of_cons
      have hbdE : b.start ≤ dayEnd := hbound b (List.mem_cons_self b rest)
      have hbrest : ∀ b1 ∈ rest, b1.start ≤ dayEnd :=
        fun b1 h1 => hbound b1 (List.mem_cons_of_mem b h1)
      have hrec := ih hsrest hbrest (if b.stop > cursor then b.stop else cursor) t
      have hcur1 : cursor ≤ (if b.stop > cursor then b.stop else cursor) := by split <;> omega
      have hcur2 : b.stop ≤ (if b.stop > cursor then b.stop else cursor) := by split <;> omega
      simp only [sweep, List.mem_append]
      constructor
      · rintro ⟨w, hw | hw, hwt⟩
        · split at hw
          · rcases List.mem_singleton.mp hw with rfl
            rcases hwt with ⟨h1, h2⟩
            simp only at h1 h2
            rename_i hemit
            refine ⟨h1, by omega, ?_⟩
            intro b1 hb1
            rcases List.mem_cons.mp hb1 with rfl | hb1
            · intro hc; rcases hc with ⟨hc1, -⟩; omega
            · intro hc
              rcases hc with ⟨hc1, -⟩
              have := hble b1 hb1
              omega
          · exact absurd hw (List.not_mem_nil w)
        · have hr := hrec.mp ⟨w, hw, hwt⟩
          rcases hr with ⟨h1, h2, h3⟩
          refine ⟨by omega, h2, ?_⟩
          intro b1 hb1
          rcases List.mem_cons.mp hb1 with rfl | hb1
          · intro hc; rcases hc with ⟨-, hc2⟩; omega
          · exact h3 b1 hb1
      · rintro ⟨h1, h2, h3⟩
        have hnb : ¬ inBlock b t := h3 b (List.mem_cons_self b rest)
        have hrestfree : ∀ b1 ∈ rest, ¬ inBlock b1 t :=
          fun b1 hb1 => h3 b1 (List.mem_cons_of_mem b hb1)
        simp only [inBlock, not_and, not_lt] at hnb
        by_cases hcase : t < b.start
        · refine ⟨⟨cursor, b.start⟩, ?_, h1, hcase⟩
          left
          have hgt : b.start > cursor := by omega
          rw [if_pos hgt]
          exact List.mem_singleton.mpr rfl
        · have hge : b.stop ≤ t := by
            rcases lt_or_ge t b.start with h | h
            · omega
            · exact hnb h
          have hcle : (if b.stop > cursor then b.stop else cursor) ≤ t := by split <;> omega
          rcases hrec.mpr ⟨hcle, h2, hrestfree⟩ with ⟨w, hw, hwt⟩
          exact ⟨w, Or.inr hw, hwt⟩

/-- The window scan returns nothing exactly when no window qualifies. -/
theorem scanWindows_eq_none_iff (d e l : Int) :
    ∀ ws : List Iv, scanWindows d e l ws = none ↔ ∀ w ∈ ws, ¬ qualifies d e l w := by
  intro ws
  induction ws with
  | nil => simp [scanWindows]
  | cons w rest ih =>
      simp only [scanWindows]
      by_cases hq : qualifies d e l w
      · rcases hq with ⟨hq1, hq2⟩
        rw [if_pos ⟨hq1, hq2⟩]
        simp only [reduceCtorEq, false_iff]
        intro hall
        exact hall w (List.mem_cons_self w rest) ⟨hq1, hq2⟩
      · unfold qualifies at hq
        rw [if_neg hq, ih]
        constructor
        · intro hall w1 hw1
          rcases List.mem_cons.mp hw1 with rfl | hw1
          · unfold qualifies; exact hq
          · exact hall w1 hw1
        · intro hall w1 hw1
          exact hall w1 (List.mem_cons_of_mem w hw1)

/-- When the window scan succeeds, it returns the candidate placement of the
first qualifying window. -/
theorem scanWindows_eq_some (d e l : Int) :
    ∀ ws : List Iv, ∀ r : Iv, scanWindows d e l ws = some r →
      ∃ pre w post, ws = pre ++ w :: post ∧ (∀ w1 ∈ pre, ¬ qualifies d e l w1) ∧
        qualifies d e l w ∧ r = ⟨max w.start e, max w.start e + d⟩ := by
  intro ws
  induction ws with
  | nil => intro r hr; simp [scanWindows] at hr
  | cons w rest ih =>
      intro r hr
      simp only [scanWindows] at hr
      by_cases hq : qualifies d e l w
      · rcases hq with ⟨hq1, hq2⟩
        rw [if_pos ⟨hq1, hq2⟩] at hr
        refine ⟨[], w, rest, by simp, by simp, ⟨hq1, hq2⟩, ?_⟩
        exact (Option.some_injective _ hr).symm
      · unfold qualifies at hq
        rw [if_neg hq] at hr
        rcases ih r hr with ⟨pre, w1, post, heq, hpre, hw1, hres⟩
        refine ⟨w :: pre, w1, post, by rw [heq]; rfl, ?_, hw1, hres⟩
        intro w2 hw2
        rcases List.mem_cons.mp hw2 with rfl | hw2
        · unfold qualifies; exact hq
        · exact hpre w2 hw2

/-- The placement returned by `placeFlexibleEvent` always spans exactly the
declared duration. -/
theorem placeFlexibleEvent_duration (payload : EventPayload) (schedule : ApiSchedule) :
    (placeFlexibleEvent payload schedule).stop =
      (placeFlexibleEvent payload schedule).start + payload.duration_minutes := by
  unfold placeFlexibleEvent
  rcases hscan : scanWindows payload.duration_minutes
      (payload.earliest_start.getD schedule.day_start)
      (payload.latest_finish.getD schedule.day_end) schedule.free_windows with - | r
  · simp only [hscan]
  · simp only [hscan]
    rcases scanWindows_eq_some _ _ _ _ r hscan with ⟨-, w, -, -, -, -, hres⟩
    rw [hres]



/-- The block built for the new event carries the new event's id. -/
theorem createdBlock_event_id (payload : EventPayload) (schedule : ApiSchedule) (eid : String) :
    (createdBlock payload schedule eid).event_id = eid := by
  unfold createdBlock
  rcases payload.type with - | - <;> rfl

/-- The block built for the new event carries no chunk markers. -/
theorem createdBlock_no_chunks (payload : EventPayload) (schedule : ApiSchedule) (eid : String) :
    (createdBlock payload schedule eid).chunk_index = none ∧
      (createdBlock payload schedule eid).chunk_count = none := by
  unfold createdBlock
  rcases payload.type with - | - <;> exact ⟨rfl, rfl⟩

/-- The block built for the new event spans exactly the declared duration. -/
theorem createdBlock_duration (payload : EventPayload) (schedule : ApiSchedule) (eid : String) :
    (createdBlock payload schedule eid).stop =
      (createdBlock payload schedule eid).start + payload.duration_minutes := by
  unfold createdBlock
  rcases htype : payload.type with - | -
  · rfl
  · simpa using placeFlexibleEvent_duration payload schedule

/-- Explicit shape of a successful `mockCreateEvent`. -/
theorem mockCreateEvent_eq_ok (payload : EventPayload) (st : MockState) (eid : String)
    (hid : payload.event_id = some eid) (hne : eid ≠ "") :
    mockCreateEvent payload st = .ok ⟨{ st.schedule with
      events := (st.schedule.events.filter (fun e => e.event_id ≠ eid)) ++
        [{ event_id := eid, type := payload.type,
           duration_minutes := payload.duration_minutes, importance := payload.importance }],
      blocks := sortBlocks ((st.schedule.blocks.filter (fun b => b.event_id ≠ eid)) ++
        [createdBlock payload st.schedule eid]),
      free_windows := computeFreeWindows { st.schedule with
        blocks := sortBlocks ((st.schedule.blocks.filter (fun b => b.event_id ≠ eid)) ++
          [createdBlock payload st.schedule eid]) } }⟩ := by
  unfold mockCreateEvent
  rw [hid]
  simp only [hne, if_false]
  rfl

/-- Appending a replacement element to a filtered list keeps the mapped keys
duplicate-free. -/
theorem nodup_upsert {α : Type} (f : α → String) (id : String) (a : α) (ha : f a = id)
    (l : List α) (h : (l.map f).Nodup) :
    (((l.filter (fun x => f x ≠ id)) ++ [a]).map f).Nodup := by
  rw [List.map_append]
  rw [List.nodup_append]
  refine ⟨?_, by simp, ?_⟩
  · exact h.sublist ((List.filter_sublist l).map f)
  · intro x hx hx2
    simp only [List.map_cons, List.map_nil, List.mem_singleton] at hx2
    rcases List.mem_map.mp hx with ⟨y, hy, rfl⟩
    have hne := List.of_mem_filter hy
    simp only [ne_eq, decide_not, Bool.not_eq_eq_eq_not, Bool.not_true, decide_eq_false_iff_not] at hne
    exact hne (hx2.trans ha)



/-- Completing and settings updates never add blocks, so they preserve
pairwise non-overlap of the block list. -/
theorem runOps_no_overlap_preserved :
    ∀ ops : List MockOp, (∀ op ∈ ops, op.isCreate = false) →
      ∀ st : MockState,
        st.schedule.blocks.Pairwise (fun a b => ¬ overlaps a.start a.stop b.start b.stop) →
        (runOps ops st).schedule.blocks.Pairwise
          (fun a b => ¬ overlaps a.start a.stop b.start b.stop) := by
  intro ops
  induction ops with
  | nil => intro _ st h; exact h
  | cons op rest ih =>
      intro hops st h
      have hrest : ∀ o ∈ rest, o.isCreate = false :=
        fun o ho => hops o (List.mem_cons_of_mem op ho)
      show (runOps rest (applyOp st op)).schedule.blocks.Pairwise _
      refine ih hrest _ ?_
      cases op with
      | create p =>
          have hc := hops _ (List.mem_cons_self _ _)
          simp [MockOp.isCreate] at hc
      | complete eid => exact h.filter _
      | settings p => exact h

/-- Every operation preserves duplicate-freeness of the event ids and of the
block ids: a create replaces, a complete filters, a settings update leaves
both lists alone. -/
theorem runOps_unique_ids_preserved :
    ∀ ops : List MockOp, ∀ st : MockState,
      (st.schedule.events.map ApiEvent.event_id).Nodup →
      (st.schedule.blocks.map ApiBlock.event_id).Nodup →
      ((runOps ops st).schedule.events.map ApiEvent.event_id).Nodup ∧
        ((runOps ops st).schedule.blocks.map ApiBlock.event_id).Nodup := by
  intro ops
  induction ops with
  | nil => intro st h1 h2; exact ⟨h1, h2⟩
  | cons op rest ih =>
      intro st h1 h2
      show ((runOps rest (applyOp st op)).schedule.events.map ApiEvent.event_id).Nodup ∧
        ((runOps rest (applyOp st op)).schedule.blocks.map ApiBlock.event_id).Nodup
      cases op with
      | create p =>
          rcases hp : p.event_id with - | eid
          · have heq : mockCreateEvent p st = .error .missingEventId := by
              simp [mockCreateEvent, hp]
            have happ : applyOp st (.create p) = st := by
              simp [applyOp, heq]
            rw [happ]
            exact ih st h1 h2
          · by_cases he : eid = ""
            · have heq : mockCreateEvent p st = .error .missingEventId := by
                simp [mockCreateEvent, hp, he]
              have happ : applyOp st (.create p) = st := by
                simp [applyOp, heq]
              rw [happ]
              exact ih st h1 h2
            · have heq := mockCreateEvent_eq_ok p st eid hp he
              have happ : applyOp st (.create p) = ⟨{ st.schedule with
                  events := (st.schedule.events.filter (fun e : ApiEvent => e.event_id ≠ eid)) ++
                    [{ event_id := eid, type := p.type,
                       duration_minutes := p.duration_minutes, importance := p.importance }],
                  blocks := sortBlocks ((st.schedule.blocks.filter (fun b : ApiBlock => b.event_id ≠ eid)) ++
                    [createdBlock p st.schedule eid]),
                  free_windows := computeFreeWindows { st.schedule with
                    blocks := sortBlocks ((st.schedule.blocks.filter (fun b : ApiBlock => b.event_id ≠ eid)) ++
                      [createdBlock p st.schedule eid]) } }⟩ := by
                simp [applyOp, heq]
              rw [happ]
              refine ih _ ?_ ?_
              · exact nodup_upsert (fun e : ApiEvent => e.event_id) eid _ rfl _ h1
              · have hperm := (sortBlocks_perm
                  ((st.schedule.blocks.filter (fun b => b.event_id ≠ eid)) ++
                    [createdBlock p st.schedule eid])).map ApiBlock.event_id
                rw [List.Perm.nodup_iff hperm]
                exact nodup_upsert (fun b : ApiBlock => b.event_id) eid _
                  (createdBlock_event_id p st.schedule eid) _ h2
      | complete eid =>
          refine ih _ ?_ ?_
          · exact h1.sublist ((List.filter_sublist _).map _)
          · exact h2.sublist ((List.filter_sublist _).map _)
      | settings p => exact ih _ h1 h2

end Calendar
namespace Calendar

/-- C1: placement of a non-splittable flexible activity.  The claim's success
path holds: the scan walks the stored free windows in list order and the
first window that can hold the candidate placement within the window and the
`latest_finish` bound yields a single block of exactly the declared duration
starting at `max (window.start) earliest`.  The claim's failure path is
amended: when no window qualifies the activity is not left unplaced — the
code places the block right after the last block of the schedule (or at
`day_start` when there are no blocks), ignoring the eligibility bound. -/
theorem C1_first_fit_with_fallback (payload : EventPayload) (schedule : ApiSchedule) :
    (placeFlexibleEvent payload schedule).stop =
      (placeFlexibleEvent payload schedule).start + payload.duration_minutes ∧
    ((∃ pre w post,
        schedule.free_windows = pre ++ w :: post ∧
        (∀ w1 ∈ pre, ¬ qualifies payload.duration_minutes
          (payload.earliest_start.getD schedule.day_start)
          (payload.latest_finish.getD schedule.day_end) w1) ∧
        qualifies payload.duration_minutes
          (payload.earliest_start.getD schedule.day_start)
          (payload.latest_finish.getD schedule.day_end) w ∧
        placeFlexibleEvent payload schedule =
          ⟨max w.start (payload.earliest_start.getD schedule.day_start),
            max w.start (payload.earliest_start.getD schedule.day_start) +
              payload.duration_minutes⟩) ∨
      ((∀ w ∈ schedule.free_windows, ¬ qualifies payload.duration_minutes
          (payload.earliest_start.getD schedule.day_start)
          (payload.latest_finish.getD schedule.day_end) w) ∧
        placeFlexibleEvent payload schedule =
          ⟨fallbackStart schedule, fallbackStart schedule + payload.duration_minutes⟩)) := by
  refine ⟨placeFlexibleEvent_duration payload schedule, ?_⟩
  unfold placeFlexibleEvent
  rcases hscan : scanWindows payload.duration_minutes
      (payload.earliest_start.getD schedule.day_start)
      (payload.latest_finish.getD schedule.day_end) schedule.free_windows with - | r
  · right
    refine ⟨(scanWindows_eq_none_iff _ _ _ _).mp hscan, ?_⟩
    simp only [hscan, fallbackStart]
  · left
    rcases scanWindows_eq_some _ _ _ _ r hscan with ⟨pre, w, post, heq, hpre, hw, hres⟩
    refine ⟨pre, w, post, heq, hpre, hw, ?_⟩
    simp only [hscan]
    exact hres

/-- C1 counterexample: the specification's `deep-work` scenario (120 minutes,
eligibility `[09:00, 12:00)`, `can_split` false).  No free window of the
initial schedule qualifies, so by the claim the activity should contribute no
block; the code instead commits the block `[14:30, 16:30)`, outside the
eligibility bound. -/
theorem C1_counterexample :
    deepWorkPayload.can_split = some false ∧
    (∀ w ∈ createMockState.schedule.free_windows, ¬ qualifies 120 540 720 w) ∧
    (mockCreateEvent deepWorkPayload createMockState).toOption.map
      (fun st => st.schedule.blocks.filter (fun b => b.event_id = "deep-work")) =
      some [{ start := 870, stop := 990, event_id := "deep-work", type := .flexible }] :=
  ⟨rfl, by decide, by decide⟩

/-- C2 (amended): the no-overlap invariant holds for every schedule reachable
from the initial one by complete and settings-update operations alone;
create operations can insert overlapping blocks (see the counterexample). -/
theorem C2_no_overlap_without_create (ops : List MockOp)
    (hops : ∀ op ∈ ops, op.isCreate = false) :
    (runOps ops createMockState).schedule.blocks.Pairwise
      (fun a b => ¬ overlaps a.start a.stop b.start b.stop) := by
  refine runOps_no_overlap_preserved ops hops createMockState ?_
  decide

/-- Witness for C2: a concrete create-free operation sequence. -/
theorem C2_no_overlap_without_create_witness :
    (∀ op ∈ [MockOp.complete "training", MockOp.settings { day_start := some 420 }],
      op.isCreate = false) ∧
    (runOps [MockOp.complete "training", MockOp.settings { day_start := some 420 }]
        createMockState).schedule.blocks.Pairwise
      (fun a b => ¬ overlaps a.start a.stop b.start b.stop) :=
  ⟨by decide, C2_no_overlap_without_create _ (by decide)⟩

/-- C2 counterexample: one create reaches a schedule holding two distinct
overlapping blocks (`training` at `[10:00, 11:00)` and `overlap-demo` at
`[10:10, 11:10)`). -/
theorem C2_counterexample :
    (runOps [MockOp.create overlapDemoPayload] createMockState).schedule.blocks =
      [ { start := 600, stop := 660, event_id := "training", type := .fixed },
        { start := 610, stop := 670, event_id := "overlap-demo", type := .fixed },
        { start := 780, stop := 870, event_id := "lecture", type := .fixed } ] ∧
    overlaps 600 660 610 670 :=
  ⟨by decide, by decide⟩

/-- C3 (amended): creating a fixed activity never checks for conflicts: given
a nonempty id the mutation succeeds, the block `[start, start + duration)` is
committed even when it overlaps an existing block of a different activity,
and the event list is updated (no `ConflictError` exists in the code). -/
theorem C3_fixed_create_commits (p : EventPayload) (st : MockState) (eid : String)
    (hid : p.event_id = some eid) (hne : eid ≠ "") (htype : p.type = .fixed) :
    ∃ st1, mockCreateEvent p st = .ok st1 ∧
      createdBlock p st.schedule eid ∈ st1.schedule.blocks ∧
      createdBlock p st.schedule eid =
        { start := p.start.getD st.schedule.day_start,
          stop := p.start.getD st.schedule.day_start + p.duration_minutes,
          event_id := eid, type := .fixed } ∧
      st1.schedule.events = (st.schedule.events.filter (fun e => e.event_id ≠ eid)) ++
        [{ event_id := eid, type := p.type, duration_minutes := p.duration_minutes,
           importance := p.importance }] := by
  refine ⟨_, mockCreateEvent_eq_ok p st eid hid hne, ?_, ?_, rfl⟩
  · exact ((sortBlocks_perm _).mem_iff).mpr
      (List.mem_append_right _ (List.mem_singleton_self _))
  · unfold createdBlock
    rw [htype]

/-- Witness for C3: a concrete fixed create that goes through. -/
theorem C3_fixed_create_commits_witness :
    webinarPayload.event_id = some "webinar" ∧ ("webinar" : String) ≠ "" ∧
    webinarPayload.type = .fixed ∧
    (mockCreateEvent webinarPayload createMockState).isOk = true := by
  refine ⟨rfl, by decide, rfl, ?_⟩
  rcases C3_fixed_create_commits webinarPayload createMockState "webinar" rfl (by decide) rfl
    with ⟨st1, heq, -, -, -⟩
  rw [heq]
  rfl

/-- C3 counterexample: the fixed `gym` block `[10:30, 11:30)` overlaps the
committed `training` block `[10:00, 11:00)` of a different activity, yet the
create succeeds and the overlapping block is committed — no `ConflictError`,
and the schedule is changed rather than left unchanged. -/
theorem C3_counterexample :
    overlaps 600 660 630 690 ∧
    ({ start := 600, stop := 660, event_id := "training", type := .fixed } : ApiBlock)
      ∈ createMockState.schedule.blocks ∧
    (mockCreateEvent gymPayload createMockState).isOk = true ∧
    (mockCreateEvent gymPayload createMockState).toOption.map
      (fun st => st.schedule.blocks) =
      some [ { start := 600, stop := 660, event_id := "training", type := .fixed },
             { start := 630, stop := 690, event_id := "gym", type := .fixed },
             { start := 780, stop := 870, event_id := "lecture", type := .fixed } ] :=
  ⟨by decide, by decide, by decide, by decide⟩

/-- C4 (amended): for every day bound with `day_start < day_end` and every
block list whose blocks satisfy `start < end` and `start ≤ day_end`, the
free-window computation covers exactly `[day_start, day_end)` minus the union
of the block intervals, every emitted window is nonempty, and consecutive
windows are in start-ascending order with a block strictly between them
(maximality). -/
theorem C4_free_windows_exact (s : ApiSchedule)
    (_hday : s.day_start < s.day_end)
    (hvalid : ∀ b ∈ s.blocks, b.start < b.stop)
    (hbound : ∀ b ∈ s.blocks, b.start ≤ s.day_end) :
    (∀ t : Int, (∃ w ∈ computeFreeWindows s, inWindow w t) ↔
      (s.day_start ≤ t ∧ t < s.day_end ∧ ∀ b ∈ s.blocks, ¬ inBlock b t)) ∧
    (∀ w ∈ computeFreeWindows s, w.start < w.stop) ∧
    (computeFreeWindows s).Pairwise (fun a b => a.stop < b.start) := by
  have hperm := sortBlocks_perm s.blocks
  have hsor := sortBlocks_sorted s.blocks
  have hvalid2 : ∀ b ∈ sortBlocks s.blocks, b.start < b.stop :=
    fun b hb => hvalid b (hperm.subset hb)
  have hbound2 : ∀ b ∈ sortBlocks s.blocks, b.start ≤ s.day_end :=
    fun b hb => hbound b (hperm.subset hb)
  refine ⟨?_, ?_, ?_⟩
  · intro t
    have h := sweep_mem_iff s.day_end (sortBlocks s.blocks) hsor hbound2 s.day_start t
    unfold computeFreeWindows
    rw [h]
    constructor
    · rintro ⟨h1, h2, h3⟩
      exact ⟨h1, h2, fun b hb => h3 b (hperm.mem_iff.mpr hb)⟩
    · rintro ⟨h1, h2, h3⟩
      exact ⟨h1, h2, fun b hb => h3 b (hperm.mem_iff.mp hb)⟩
  · intro w hw
    exact (sweep_window_bounds s.day_end (sortBlocks s.blocks) s.day_start w hw).2
  · exact sweep_separated_strict s.day_end (sortBlocks s.blocks) hvalid2 s.day_start

/-- Witness for C4: the initial schedule's bounds and blocks satisfy the
hypotheses, and its free windows are separated and ordered. -/
theorem C4_free_windows_exact_witness :
    createMockState.schedule.day_start < createMockState.schedule.day_end ∧
    (∀ b ∈ createMockState.schedule.blocks, b.start < b.stop) ∧
    (∀ b ∈ createMockState.schedule.blocks, b.start ≤ createMockState.schedule.day_end) ∧
    (computeFreeWindows createMockState.schedule).Pairwise (fun a b => a.stop < b.start) := by
  refine ⟨by decide, by decide, by decide, ?_⟩
  exact (C4_free_windows_exact createMockState.schedule (by decide) (by decide) (by decide)).2.2

/-- C4 counterexample: with a zero-length block `[50, 50)` and a block
starting after the day end, the computation emits `[0, 50)` and `[50, 120)`
for the day `[0, 100)`: instant `110` is covered although it lies outside the
day, and the first window ends exactly where the second begins (windows are
neither a subset of the day nor maximal). -/
theorem C4_counterexample :
    computeFreeWindows outOfDaySchedule = [⟨0, 50⟩, ⟨50, 120⟩] ∧
    inWindow ⟨50, 120⟩ 110 ∧
    ¬ (outOfDaySchedule.day_start ≤ 110 ∧ (110 : Int) < outOfDaySchedule.day_end) ∧
    Iv.stop ⟨0, 50⟩ = Iv.start ⟨50, 120⟩ :=
  ⟨by decide, by decide, by decide, rfl⟩

/-- C5 (amended): creating an activity whose id is already present does not
fail with a `DuplicateIdError` (no such error exists in the code); it
succeeds and replaces the previous event and its blocks with the new ones. -/
theorem C5_create_replaces (p : EventPayload) (st : MockState) (eid : String)
    (hid : p.event_id = some eid) (hne : eid ≠ "")
    (_hmem : eid ∈ st.schedule.events.map ApiEvent.event_id) :
    ∃ st1, mockCreateEvent p st = .ok st1 ∧
      st1.schedule.events = (st.schedule.events.filter (fun e => e.event_id ≠ eid)) ++
        [{ event_id := eid, type := p.type, duration_minutes := p.duration_minutes,
           importance := p.importance }] ∧
      st1.schedule.blocks.Perm
        ((st.schedule.blocks.filter (fun b => b.event_id ≠ eid)) ++
          [createdBlock p st.schedule eid]) :=
  ⟨_, mockCreateEvent_eq_ok p st eid hid hne, rfl, sortBlocks_perm _⟩

/-- Witness for C5: re-creating the already-present `lecture` succeeds. -/
theorem C5_create_replaces_witness :
    lectureRepeatPayload.event_id = some "lecture" ∧ ("lecture" : String) ≠ "" ∧
    "lecture" ∈ createMockState.schedule.events.map ApiEvent.event_id ∧
    (mockCreateEvent lectureRepeatPayload createMockState).isOk = true := by
  refine ⟨rfl, by decide, by decide, ?_⟩
  rcases C5_create_replaces lectureRepeatPayload createMockState "lecture" rfl
      (by decide) (by decide) with ⟨st1, heq, -, -⟩
  rw [heq]
  rfl

/-- C5 counterexample: creating `training` again (30 minutes at 09:00) while
`training` is committed raises no error and changes the schedule — the event
durations go from `[60, 90]` to `[90, 30]` — instead of failing with
`DuplicateIdError` and leaving the schedule unchanged. -/
theorem C5_counterexample :
    duplicateTrainingPayload.event_id = some "training" ∧
    "training" ∈ createMockState.schedule.events.map ApiEvent.event_id ∧
    createMockState.schedule.events.map ApiEvent.duration_minutes = [60, 90] ∧
    (mockCreateEvent duplicateTrainingPayload createMockState).isOk = true ∧
    (mockCreateEvent duplicateTrainingPayload createMockState).toOption.map
      (fun st => st.schedule.events.map ApiEvent.duration_minutes) = some [90, 30] :=
  ⟨rfl, by decide, by decide, by decide, by decide⟩

/-- C6 (amended): `can_split` and `min_chunk_minutes` are inert.  A flexible
activity is always committed as exactly one contiguous block spanning the
whole declared duration with no chunk markers, whatever the split settings
say and whether or not the duration fits a single window. -/
theorem C6_no_splitting (p : EventPayload) (st : MockState) (eid : String)
    (hid : p.event_id = some eid) (hne : eid ≠ "") (_htype : p.type = .flexible) :
    ∃ st1, mockCreateEvent p st = .ok st1 ∧
      st1.schedule.blocks.filter (fun b => b.event_id = eid) =
        [createdBlock p st.schedule eid] ∧
      (createdBlock p st.schedule eid).chunk_index = none ∧
      (createdBlock p st.schedule eid).chunk_count = none ∧
      (createdBlock p st.schedule eid).stop =
        (createdBlock p st.schedule eid).start + p.duration_minutes := by
  refine ⟨_, mockCreateEvent_eq_ok p st eid hid hne, ?_,
    (createdBlock_no_chunks p st.schedule eid).1,
    (createdBlock_no_chunks p st.schedule eid).2,
    createdBlock_duration p st.schedule eid⟩
  have hperm : ((sortBlocks ((st.schedule.blocks.filter (fun b => b.event_id ≠ eid)) ++
      [createdBlock p st.schedule eid])).filter (fun b => b.event_id = eid)).Perm
      (((st.schedule.blocks.filter (fun b => b.event_id ≠ eid)) ++
        [createdBlock p st.schedule eid]).filter (fun b => b.event_id = eid)) :=
    (sortBlocks_perm _).filter _
  have hfilter : (((st.schedule.blocks.filter (fun b => b.event_id ≠ eid)) ++
      [createdBlock p st.schedule eid]).filter (fun b => b.event_id = eid)) =
      [createdBlock p st.schedule eid] := by
    rw [List.filter_append]
    have h1 : ((st.schedule.blocks.filter (fun b => b.event_id ≠ eid)).filter
        (fun b => b.event_id = eid)) = [] := by
      rw [List.filter_eq_nil_iff]
      intro a ha
      have hmem := List.of_mem_filter ha
      simp only [ne_eq, decide_not, Bool.not_eq_eq_eq_not, Bool.not_true,
        decide_eq_false_iff_not] at hmem
      simp only [decide_eq_true_eq]
      exact hmem
    have h2 : ([createdBlock p st.schedule eid].filter (fun b => b.event_id = eid)) =
        [createdBlock p st.schedule eid] := by
      have := createdBlock_event_id p st.schedule eid
      simp [List.filter, this]
    rw [h1, h2, List.nil_append]
  rw [hfilter] at hperm
  exact List.perm_singleton.mp hperm

/-- Witness for C6: a splittable flexible create goes through. -/
theorem C6_no_splitting_witness :
    readingPayload.event_id = some "reading" ∧ ("reading" : String) ≠ "" ∧
    readingPayload.type = .flexible ∧ readingPayload.can_split = some true ∧
    (mockCreateEvent readingPayload createMockState).isOk = true := by
  refine ⟨rfl, by decide, rfl, rfl, ?_⟩
  rcases C6_no_splitting readingPayload createMockState "reading" rfl (by decide) rfl
    with ⟨st1, heq, -, -, -, -⟩
  rw [heq]
  rfl

/-- C6 counterexample: `bigtask` (360 minutes, splittable, min chunk 30) fits
no single free window of the initial schedule, while the windows together
hold 570 minutes, so the claim's splitting algorithm would succeed with at
least two tagged chunks.  The code instead commits exactly one block
`[14:30, 20:30)` — carved from no window, running past the end of the day —
with no chunk markers. -/
theorem C6_counterexample :
    bigtaskPayload.can_split = some true ∧
    bigtaskPayload.min_chunk_minutes = some 30 ∧
    (∀ w ∈ createMockState.schedule.free_windows, w.stop - w.start < 360) ∧
    (mockCreateEvent bigtaskPayload createMockState).toOption.map
      (fun st => st.schedule.blocks.filter (fun b => b.event_id = "bigtask")) =
      some [{ start := 870, stop := 1230, event_id := "bigtask", type := .flexible,
              chunk_index := none, chunk_count := none }] :=
  ⟨rfl, rfl, by decide, by decide⟩

/-- C7 (amended): the proposal query never mutates the committed state and
always returns the committed free-window list; for a flexible candidate it
returns the single hypothetical block computed by the placement routine, but
for a fixed candidate it returns an empty block list rather than a
hypothetical block. -/
theorem C7_proposal_pure (p : EventPayload) (st : MockState) :
    (mockProposal p st).2 = st ∧
    (mockProposal p st).1.free_windows = st.schedule.free_windows ∧
    (p.type = .flexible →
      (mockProposal p st).1.blocks =
        [{ event_id := p.event_id.getD "proposal", type := .flexible,
           start := (placeFlexibleEvent p st.schedule).start,
           stop := (placeFlexibleEvent p st.schedule).stop }]) ∧
    (p.type = .fixed → (mockProposal p st).1.blocks = []) := by
  rcases htype : p.type with - | -
  · refine ⟨?_, ?_, ?_, ?_⟩ <;> simp [mockProposal, htype]
  · refine ⟨?_, ?_, ?_, ?_⟩ <;> simp [mockProposal, htype]

/-- C7 counterexample: for the fixed candidate `standup` (declared at
`[15:00, 16:00)`) the proposal returns no hypothetical block at all. -/
theorem C7_counterexample :
    standupPayload.type = .fixed ∧
    standupPayload.start = some 900 ∧
    (mockProposal standupPayload createMockState).1.blocks = [] :=
  ⟨rfl, rfl, by decide⟩

/-- C8: completing an activity removes it and every block referencing it and
recomputes the free windows from the remaining blocks; completing `training`
in the initial schedule yields the free windows `[08:00, 13:00)` and
`[14:30, 20:00)`. -/
theorem C8_complete_removes (st : MockState) (eventId : String)
    (_hmem : eventId ∈ st.schedule.events.map ApiEvent.event_id) :
    (mockCompleteEvent eventId st).schedule.events =
      st.schedule.events.filter (fun e => e.event_id ≠ eventId) ∧
    (mockCompleteEvent eventId st).schedule.blocks =
      st.schedule.blocks.filter (fun b => b.event_id ≠ eventId) ∧
    (mockCompleteEvent eventId st).schedule.free_windows =
      computeFreeWindows { st.schedule with
        blocks := st.schedule.blocks.filter (fun b => b.event_id ≠ eventId) } ∧
    (mockCompleteEvent "training" createMockState).schedule.free_windows =
      [⟨480, 780⟩, ⟨870, 1200⟩] :=
  ⟨rfl, rfl, rfl, by decide⟩

/-- Witness for C8: completing the present id `training`. -/
theorem C8_complete_removes_witness :
    "training" ∈ createMockState.schedule.events.map ApiEvent.event_id ∧
    (mockCompleteEvent "training" createMockState).schedule.free_windows =
      [⟨480, 780⟩, ⟨870, 1200⟩] :=
  ⟨by decide, (C8_complete_removes createMockState "training" (by decide)).2.2.2⟩

/-- C9 (amended): for every day bound and every block list whose blocks
satisfy `start ≤ end` — unsorted, touching, nested, overlapping and
zero-length blocks included — every emitted free window has `start < end`,
and the windows are pairwise disjoint in strictly increasing start order.
For a reversed block (`start > end`, which the data model forbids) the
computation can emit overlapping windows (see the counterexample). -/
theorem C9_windows_wellformed (s : ApiSchedule)
    (_hday : s.day_start < s.day_end)
    (hvalid : ∀ b ∈ s.blocks, b.start ≤ b.stop) :
    (∀ w ∈ computeFreeWindows s, w.start < w.stop) ∧
    (computeFreeWindows s).Pairwise
      (fun a b => a.start < b.start ∧ ¬ overlaps a.start a.stop b.start b.stop) := by
  have hperm := sortBlocks_perm s.blocks
  have hvalid2 : ∀ b ∈ sortBlocks s.blocks, b.start ≤ b.stop :=
    fun b hb => hvalid b (hperm.subset hb)
  have hbounds := sweep_window_bounds s.day_end (sortBlocks s.blocks) s.day_start
  have hsep := sweep_separated s.day_end (sortBlocks s.blocks) hvalid2 s.day_start
  refine ⟨fun w hw => (hbounds w hw).2, ?_⟩
  unfold computeFreeWindows
  refine List.Pairwise.imp_of_mem ?_ hsep
  intro a b ha hb hab
  have h1 := (hbounds a ha).2
  have h2 := (hbounds b hb).2
  refine ⟨by omega, ?_⟩
  unfold overlaps
  omega

/-- Witness for C9: a schedule with unsorted, touching and zero-length
blocks. -/
theorem C9_windows_wellformed_witness :
    unsortedSchedule.day_start < unsortedSchedule.day_end ∧
    (∀ b ∈ unsortedSchedule.blocks, b.start ≤ b.stop) ∧
    (computeFreeWindows unsortedSchedule).Pairwise
      (fun a b => a.start < b.start ∧ ¬ overlaps a.start a.stop b.start b.stop) :=
  ⟨by decide, by decide, (C9_windows_wellformed unsortedSchedule (by decide) (by decide)).2⟩

/-- C9 counterexample: a single reversed block `[70, 30)` makes the
computation emit the overlapping windows `[0, 70)` and `[30, 100)`, so for a
fully arbitrary block list the emitted windows are not pairwise disjoint. -/
theorem C9_counterexample :
    computeFreeWindows reversedSchedule = [⟨0, 70⟩, ⟨30, 100⟩] ∧
    overlaps 0 70 30 100 :=
  ⟨by decide, by decide⟩

/-- C10: after any sequence of create, complete and settings operations from
the initial schedule no two events and no two blocks share an event id, and
re-creating the present id `training` replaces the previous event and its
block rather than adding second entries. -/
theorem C10_ids_unique_and_upsert (ops : List MockOp) :
    ((runOps ops createMockState).schedule.events.map ApiEvent.event_id).Nodup ∧
    ((runOps ops createMockState).schedule.blocks.map ApiBlock.event_id).Nodup ∧
    (mockCreateEvent trainingAgainPayload createMockState).toOption.map
      (fun st => st.schedule.events.map ApiEvent.event_id) = some ["lecture", "training"] ∧
    (mockCreateEvent trainingAgainPayload createMockState).toOption.map
      (fun st => st.schedule.blocks.map ApiBlock.event_id) = some ["lecture", "training"] := by
  have h := runOps_unique_ids_preserved ops createMockState (by decide) (by decide)
  exact ⟨h.1, h.2, by decide, by decide⟩

end Calendar
